import Mathlib

/-!
# Verification of the project-management server's validation and service rules

Shallow embedding of the repository's core logic:
* `ProjectValidator.createProject`  (src/unnamed/part_002, validator part)
* `ProjectRepository.*`             (src/unnamed/part_002, repository part)
* `ProjectService.*`                (src/src/modules/project/service/project.service.ts)
* `ProjectController.listProjects`  (src/unnamed/part_001) — the `Number(x) || d`
  coercion of `page` / `limit`.

Modelling conventions:
* JS `Date` values are milliseconds since the epoch (`Int`); an unparsable
  date (`NaN` time value) is `JsDate.invalid`.  Payload date fields are
  `Option JsDate`: `none` is an absent field, `some d` carries the outcome of
  `new Date(x)` on the supplied value.  (A present-but-falsy `""` start date,
  which the code reports as "required", is outside this model; no claim
  distinguishes it.)
* `new Date()` (the current clock) is passed explicitly as a `now : Int`
  argument.
* The MongoDB store is a `List StoredProject`; `insertOne` appends,
  `deleteOne` / `updateOne` act on the first `_id` match, `countDocuments`
  counts matches.  A thrown driver `BSONError` (from `new ObjectId` on a
  malformed string) is `AppError.bson`.
* The `$regex`/`$options:"i"` search is modelled as case-insensitive
  substring containment (no claim exercises regex metacharacters).
-/

deriving instance DecidableEq for Except

/-- Hexadecimal digit test (the driver's 24-hex-character id check). -/
def Char.isHexDigitChar (c : Char) : Bool :=
  c.isDigit || ('a' ≤ c && c ≤ 'f') || ('A' ≤ c && c ≤ 'F')

/-- JS `String.prototype.trim()`: strip whitespace from both ends.
(List-based so that concrete instances evaluate inside the kernel.) -/
def jsTrim (s : String) : String :=
  ⟨((s.toList.dropWhile Char.isWhitespace).reverse.dropWhile
      Char.isWhitespace).reverse⟩

/-- JS `String.prototype.toLowerCase()` (ASCII case mapping suffices here). -/
def jsToLower (s : String) : String :=
  ⟨s.toList.map Char.toLower⟩

/-- JS `str.startsWith("-")`. -/
def jsStartsWithDash (s : String) : Bool :=
  match s.toList with
  | '-' :: _ => true
  | _ => false

/-- JS `str.replace("-", "")`: removes only the FIRST occurrence of `"-"`,
wherever it occurs in the string (not merely a leading one). -/
def jsReplaceFirstDash (s : String) : String :=
  ⟨s.toList.erase '-'⟩

/-- `ThrowError` from src/src/middleware/project.middleware.ts:
a structured error carrying `(code, title, message)`. -/
structure ThrowError where
  code : Nat
  title : String
  message : String
deriving DecidableEq, Repr

/-- An error escaping a repository/service call: either an application
`ThrowError` or a store-level fault (the driver's `BSONError` raised by
`new ObjectId` on a malformed id). -/
inductive AppError where
  | thrown (e : ThrowError)
  | bson
deriving DecidableEq, Repr

/-- Result of `new Date(x)` on a payload field: a valid date (ms since
epoch) or an invalid date (`NaN` time value). -/
inductive JsDate where
  | valid (ms : Int)
  | invalid
deriving DecidableEq, Repr

namespace JsDate

/-- `isNaN(d.getTime())`. -/
def isNaN : JsDate → Bool
  | valid _ => false
  | invalid => true

end JsDate

/-- The untrusted creation payload (`ProjectProps` as received in `req.body`):
every field may be absent. -/
structure CreatePayload where
  clientName : Option String := none
  name : Option String := none
  description : Option String := none
  status : Option String := none
  startDate : Option JsDate := none
  endDate : Option JsDate := none
deriving DecidableEq, Repr

/-- A project document as stored in / returned from the `projects`
collection.  Fields the code may leave unset are `Option`; the validator's
output has `_id = none` and `updatedAt = none`. -/
structure StoredProject where
  _id : Option String := none
  clientName : String
  name : String
  description : Option String := none
  status : String
  startDate : Int
  endDate : Option Int := none
  createdAt : Int
  updatedAt : Option Int := none
deriving DecidableEq, Repr

/-- The `projects` collection. -/
abbrev Store := List StoredProject

namespace ObjectId

/-- `ObjectId.isValid` of the mongodb driver: a 24-character hex string or a
12-character (12-byte) string. -/
def isValid (s : String) : Bool :=
  (s.length = 24 && s.toList.all Char.isHexDigitChar) || s.length = 12

end ObjectId

namespace ProjectValidator

/-- `VALIDATION_STATUS_CODE` in the validator. -/
def VALIDATION_STATUS_CODE : Nat := 400

/-- `VALIDATION_TITLE` in the validator. -/
def VALIDATION_TITLE : String := "VALIDATION_ERROR"

/-- `ALLOWED_STATUSES` in the validator. -/
def ALLOWED_STATUSES : List String := ["active", "on_hold", "completed"]

/-- The falsy / non-string / blank test on a required string field:
`!x || typeof x !== "string" || x.trim() === ""`. -/
def badRequiredString : Option String → Bool
  | none => true
  | some s => jsTrim s = ""

/-- The status test `!status || !ALLOWED_STATUSES.includes(status)`
(`""` is falsy and is also not in the allowed list). -/
def badStatus : Option String → Bool
  | none => true
  | some s => s = "" || !(ALLOWED_STATUSES.contains s)

/-- `ProjectValidator.createProject` (src/unnamed/part_002 lines 236-358):
fail-fast field validation producing the sanitized record, or a 400
`VALIDATION_ERROR`.  `now` is the clock value used for `createdAt`. -/
def createProject (now : Int) (data : CreatePayload) :
    Except ThrowError StoredProject :=
  if badRequiredString data.clientName then
    .error ⟨VALIDATION_STATUS_CODE, VALIDATION_TITLE, "Client name is required"⟩
  else if badRequiredString data.name then
    .error ⟨VALIDATION_STATUS_CODE, VALIDATION_TITLE, "Project name is required"⟩
  else
  -- description: optional, but if present must be a non-empty string
  match data.description with
  | some d =>
    if jsTrim d = "" then
      .error ⟨VALIDATION_STATUS_CODE, VALIDATION_TITLE,
        "Description must be a non-empty string if provided"⟩
    else
      createCore now data (some (jsTrim d))
  | none => createCore now data none
where
  /-- Validation from the status check on (description already settled). -/
  createCore (now : Int) (data : CreatePayload) (desc : Option String) :
      Except ThrowError StoredProject :=
    if badStatus data.status then
      .error ⟨VALIDATION_STATUS_CODE, VALIDATION_TITLE,
        "Invalid or missing project status"⟩
    else
    match data.startDate with
    | none =>
      .error ⟨VALIDATION_STATUS_CODE, VALIDATION_TITLE, "Start date is required"⟩
    | some sd =>
      match sd with
      | .invalid =>
        .error ⟨VALIDATION_STATUS_CODE, VALIDATION_TITLE,
          "Start date must be a valid ISO date"⟩
      | .valid parsedStart =>
        match data.endDate with
        | some ed =>
          match ed with
          | .invalid =>
            .error ⟨VALIDATION_STATUS_CODE, VALIDATION_TITLE,
              "End date must be a valid ISO date"⟩
          | .valid parsedEnd =>
            if parsedEnd < parsedStart then
              .error ⟨VALIDATION_STATUS_CODE, VALIDATION_TITLE,
                "End date cannot be before start date"⟩
            else
              .ok { clientName := jsTrim ((data.clientName).getD ""),
                    name := jsTrim ((data.name).getD ""),
                    description := desc,
                    status := (data.status).getD "",
                    startDate := parsedStart,
                    endDate := some parsedEnd,
                    createdAt := now }
        | none =>
          .ok { clientName := jsTrim ((data.clientName).getD ""),
                name := jsTrim ((data.name).getD ""),
                description := desc,
                status := (data.status).getD "",
                startDate := parsedStart,
                endDate := none,
                createdAt := now }

end ProjectValidator

/-- The table view of a project returned by the list operation
(`ProjectListItem` in src/src/modules/project/model/project.model.ts). -/
structure ProjectListItem where
  id : String
  name : String
  clientName : String
  status : String
  startDate : Int
  endDate : Option Int
  createdAt : Int
deriving DecidableEq, Repr

/-- The detail view of a project
(`ProjectDetails` in src/src/modules/project/model/project.model.ts). -/
structure ProjectDetails where
  id : String
  name : String
  clientName : String
  status : String
  description : Option String
  startDate : Int
  endDate : Option Int
  createdAt : Int
  updatedAt : Option Int
deriving DecidableEq, Repr

/-- The filter object built by `ProjectService.listProjects`: an optional
`status` equality and an optional case-insensitive `search`. -/
structure ListFilter where
  status : Option String := none
  search : Option String := none
deriving DecidableEq, Repr

/-- A MongoDB single-key sort specification `{ field: order }`
(`order` is `1` or `-1`). -/
structure SortSpec where
  field : String
  order : Int
deriving DecidableEq, Repr

/-- `needle` occurs as a prefix of `hay`. -/
def listPrefixOf : List Char → List Char → Bool
  | [], _ => true
  | _ :: _, [] => false
  | a :: as, b :: bs => a = b && listPrefixOf as bs

/-- `needle` occurs as a contiguous sublist of `hay`. -/
def listSubstrOf (needle : List Char) : List Char → Bool
  | [] => listPrefixOf needle []
  | b :: bs => listPrefixOf needle (b :: bs) || listSubstrOf needle bs

namespace ProjectRepository

/-- `new ObjectId(s)` of the mongodb driver: yields the id for a well-formed
string and raises a `BSONError` otherwise. -/
def makeObjectId (s : String) : Except AppError String :=
  if ObjectId.isValid s then .ok s else .error .bson

/-- `ProjectRepository.createProject` (src/unnamed/part_002 lines 39-49):
`insertOne(data)` appends the document, the driver assigns the generated id
`newId`, and the call returns `{...data, _id: result.insertedId.toString()}`. -/
def createProject (data : StoredProject) (newId : String) (store : Store) :
    StoredProject × Store :=
  let doc := { data with _id := some newId }
  (doc, store ++ [doc])

/-- Whether a document matches the service's filter: `status` equality and
the `$or` of two case-insensitive `$regex` clauses on `name`/`clientName`
(modelled as substring containment). -/
def matchesFilter (f : ListFilter) (d : StoredProject) : Bool :=
  (match f.status with
   | none => true
   | some s => d.status = s) &&
  (match f.search with
   | none => true
   | some q =>
     listSubstrOf (jsToLower q).toList (jsToLower d.name).toList ||
     listSubstrOf (jsToLower q).toList (jsToLower d.clientName).toList)

/-- The document value of the named sort field.  Only the whitelisted
fields `createdAt` and `startDate` ever reach the repository. -/
def sortKey (field : String) (d : StoredProject) : Int :=
  if field = "startDate" then d.startDate else d.createdAt

/-- The ordering realised by `.sort({field: order})`: ascending on the key
for `order = 1`, descending for `order = -1`. -/
def sortLe (s : SortSpec) (a b : StoredProject) : Prop :=
  if s.order = -1 then sortKey s.field b ≤ sortKey s.field a
  else sortKey s.field a ≤ sortKey s.field b

instance (s : SortSpec) : DecidableRel (sortLe s) := fun a b => by
  unfold sortLe; exact inferInstanceAs (Decidable _)

/-- Map a stored document to its table view (`projectsRaw.map(...)`,
src/unnamed/part_002 lines 91-99); stored documents always carry an `_id`,
rendered with `toString()`. -/
def toListItem (d : StoredProject) : ProjectListItem :=
  { id := (d._id).getD "", name := d.name, clientName := d.clientName,
    status := d.status, startDate := d.startDate, endDate := d.endDate,
    createdAt := d.createdAt }

/-- `ProjectRepository.listProjects` (src/unnamed/part_002 lines 69-102):
`find(filter).sort(sortOption).skip(skip).limit(limit)` plus
`countDocuments(filter)`.  MongoDB rejects a negative `skip` with a server
error; `limit(0)` means no limit, and a negative limit caps at its
magnitude. -/
def listProjects (filter : ListFilter) (sortOption : SortSpec)
    (skip limit : Int) (store : Store) :
    Except AppError (List ProjectListItem × Int) :=
  if skip < 0 then .error .bson
  else
    let matched := store.filter (matchesFilter filter)
    let sorted := List.insertionSort (sortLe sortOption) matched
    let paged :=
      if limit = 0 then sorted.drop skip.toNat
      else (sorted.drop skip.toNat).take limit.natAbs
    .ok (paged.map toListItem, (matched.length : Int))

/-- Map a stored document to its detail view
(src/unnamed/part_002 lines 126-136). -/
def toDetails (d : StoredProject) : ProjectDetails :=
  { id := (d._id).getD "", name := d.name, clientName := d.clientName,
    status := d.status, description := d.description,
    startDate := d.startDate, endDate := d.endDate,
    createdAt := d.createdAt, updatedAt := d.updatedAt }

/-- `ProjectRepository.getProjectDataById` (src/unnamed/part_002 lines
115-137): `findOne({_id: new ObjectId(id)})` — the `ObjectId` constructor is
unguarded, so a malformed id raises a `BSONError`. -/
def getProjectDataById (id : String) (store : Store) :
    Except AppError (Option ProjectDetails) := do
  let oid ← makeObjectId id
  match store.find? (fun d => d._id == some oid) with
  | none => .ok none
  | some d => .ok (some (toDetails d))

/-- `ProjectRepository.getProjectExistanceById` (src/unnamed/part_002 lines
155-172): guarded by `ObjectId.isValid`, then
`countDocuments({_id}, {limit: 1}) > 0`. -/
def getProjectExistanceById (id : String) (store : Store) : Bool :=
  if !ObjectId.isValid id then false
  else store.any (fun d => d._id == some id)

/-- `ProjectRepository.deleteProjectById` (src/unnamed/part_002 lines
185-193): `deleteOne({_id: new ObjectId(id)})` removes the first matching
document; result is `deletedCount === 1`.  The `ObjectId` constructor is
unguarded. -/
def deleteProjectById (id : String) (store : Store) :
    Except AppError (Bool × Store) := do
  let oid ← makeObjectId id
  .ok (store.any (fun d => d._id == some oid),
       store.eraseP (fun d => d._id == some oid))

/-- Replace the first document satisfying `p` by `f` of it. -/
def updateFirst (p : StoredProject → Bool) (f : StoredProject → StoredProject) :
    Store → Store
  | [] => []
  | d :: ds => if p d then f d :: ds else d :: updateFirst p f ds

/-- `ProjectRepository.updateProjectStatusById` (src/unnamed/part_002 lines
209-228): `updateOne({_id: new ObjectId(id)}, {$set: {status, updatedAt:
new Date()}})`; result is `modifiedCount === 1`, i.e. a match was found and
the `$set` actually changed the document.  The `ObjectId` constructor is
unguarded. -/
def updateProjectStatusById (id : String) (status : String) (now : Int)
    (store : Store) : Except AppError (Bool × Store) := do
  let oid ← makeObjectId id
  match store.find? (fun d => d._id == some oid) with
  | none => .ok (false, store)
  | some d =>
    let d' := { d with status := status, updatedAt := some now }
    .ok (decide (d' ≠ d),
         updateFirst (fun e => e._id == some oid)
           (fun e => { e with status := status, updatedAt := some now }) store)

end ProjectRepository

/-- `ListProjectsParams` of the model file, as received by the service. -/
structure ListProjectsParams where
  page : Int
  limit : Int
  status : Option String := none
  search : Option String := none
  sort : Option String := none
deriving DecidableEq, Repr

/-- The pagination metadata of the list result. -/
structure Pagination where
  total : Int
  page : Int
  limit : Int
  totalPages : Int
deriving DecidableEq, Repr

/-- The value returned by `ProjectService.listProjects`. -/
structure ListResult where
  data : List ProjectListItem
  pagination : Pagination
deriving DecidableEq, Repr

namespace ProjectService

/-- JS truthiness of an optional string field (`undefined` and `""` falsy). -/
def strTruthy : Option String → Bool
  | none => false
  | some s => s ≠ ""

/-- `Math.ceil(total / limit)` on numeric values: the ceiling of the exact
quotient, written with `Int.fdiv` so concrete instances evaluate in the
kernel (`totalPagesOf_eq_ceil` below identifies it with `Int.ceil`).
JS yields `Infinity` for `limit = 0`, which is outside this model — the
controller never passes 0. -/
def totalPagesOf (total limit : Int) : Int :=
  if limit = 0 then 0
  else if 0 < limit then -((-total).fdiv limit)
  else -(total.fdiv (-limit))

/-- `allowedSortFields` in `ProjectService.listProjects`. -/
def allowedSortFields : List String := ["createdAt", "startDate"]

/-- The `sortOption` computation of `ProjectService.listProjects`
(src lines 72-91): when `sort` is truthy, `order` is `-1` iff the token
starts with `"-"`, the field is the token with its first `"-"` removed
(`sort.replace("-", "")`), and a field outside the whitelist throws 400
"Sorting not allowed on this field"; otherwise the default is
`{createdAt: -1}`. -/
def sortOptionOf (sort : Option String) : Except AppError SortSpec :=
  if strTruthy sort then
    let t := sort.getD ""
    let order : Int := if jsStartsWithDash t then -1 else 1
    let field := jsReplaceFirstDash t
    if allowedSortFields.contains field then .ok ⟨field, order⟩
    else .error (.thrown ⟨400, "Invalid Sort Field",
      "Sorting not allowed on this field"⟩)
  else .ok ⟨"createdAt", -1⟩

/-- The filter object built from `status` / `search`
(src lines 59-70; falsy values add no clause). -/
def filterOf (status search : Option String) : ListFilter :=
  { status := if strTruthy status then status else none,
    search := if strTruthy search then search else none }

/-- `skip = (page - 1) * limit` (src line 57). -/
def skipOf (page limit : Int) : Int := (page - 1) * limit

/-- `ProjectService.listProjects`
(src/src/modules/project/service/project.service.ts lines 50-109). -/
def listProjects (p : ListProjectsParams) (store : Store) :
    Except AppError ListResult :=
  match sortOptionOf p.sort with
  | .error e => .error e
  | .ok sortOption =>
    match ProjectRepository.listProjects (filterOf p.status p.search)
        sortOption (skipOf p.page p.limit) p.limit store with
    | .error e => .error e
    | .ok (projects, total) =>
      .ok { data := projects,
            pagination := { total := total, page := p.page, limit := p.limit,
                            totalPages := totalPagesOf total p.limit } }

/-- `ProjectService.createProject` (src lines 22-33): validate, insert,
and fail 500 `FAILURE` if the store returned no id. -/
def createProject (now : Int) (newId : String) (data : CreatePayload)
    (store : Store) : Except AppError StoredProject × Store :=
  match ProjectValidator.createProject now data with
  | .error e => (.error (.thrown e), store)
  | .ok validatedBody =>
    let (result, store') :=
      ProjectRepository.createProject validatedBody newId store
    match result._id with
    | none => (.error (.thrown ⟨500, "FAILURE", "Failed to create project"⟩),
               store')
    | some _ => (.ok result, store')

/-- `ProjectService.projectDeatilsById` (src lines 120-131).  The 400 title
is the code's literal (misspelled) string `"VALIDTION_ERROR"`. -/
def projectDeatilsById (id : String) (store : Store) :
    Except AppError ProjectDetails :=
  if !ObjectId.isValid id then
    .error (.thrown ⟨400, "VALIDTION_ERROR", "Invalid id"⟩)
  else
    match ProjectRepository.getProjectDataById id store with
    | .error e => .error e
    | .ok none => .error (.thrown ⟨404, "NOT_FOUND", "Project not found"⟩)
    | .ok (some d) => .ok d

/-- `ProjectService.removeProjectById` (src lines 140-158): id validity,
existence check, then `deleteOne`; 500 `FAILURE` if the store reports the
deletion did not take effect. -/
def removeProjectById (id : String) (store : Store) :
    Except AppError Unit × Store :=
  if !ObjectId.isValid id then
    (.error (.thrown ⟨400, "VALIDTION_ERROR", "Invalid id"⟩), store)
  else if !ProjectRepository.getProjectExistanceById id store then
    (.error (.thrown ⟨404, "NOT_FOUND", "Project not found"⟩), store)
  else
    match ProjectRepository.deleteProjectById id store with
    | .error e => (.error e, store)
    | .ok (deleted, store') =>
      if !deleted then
        (.error (.thrown ⟨500, "FAILURE", "Failed to delete project"⟩), store')
      else (.ok (), store')

/-- `ALLOWED_STATUSES` in `ProjectService.updateProjectStatusById`. -/
def ALLOWED_STATUSES : List String := ["active", "on_hold", "completed"]

/-- `!status || !ALLOWED_STATUSES.includes(status)` on the request's raw
status value. -/
def badStatus : Option String → Bool
  | none => true
  | some s => s = "" || !(ALLOWED_STATUSES.contains s)

/-- `ProjectService.updateProjectStatusById` (src lines 169-203): id
validity, then status whitelist, then existence, then `updateOne`; 500
`FAILURE` if the store reports no modification. -/
def updateProjectStatusById (id : String) (status : Option String)
    (now : Int) (store : Store) : Except AppError Unit × Store :=
  if !ObjectId.isValid id then
    (.error (.thrown ⟨400, "VALIDTION_ERROR", "Invalid id"⟩), store)
  else if badStatus status then
    (.error (.thrown ⟨400, "VALIDATION_ERROR",
      "Invalid or missing project status"⟩), store)
  else if !ProjectRepository.getProjectExistanceById id store then
    (.error (.thrown ⟨404, "NOT_FOUND", "Project not found"⟩), store)
  else
    match ProjectRepository.updateProjectStatusById id (status.getD "")
        now store with
    | .error e => (.error e, store)
    | .ok (modified, store') =>
      if !modified then
        (.error (.thrown ⟨500, "FAILURE",
          "Failed to update status of a  project"⟩), store')
      else (.ok (), store')

end ProjectService

namespace ProjectController

/-- JS `Number(s)` on the integer-literal fragment relevant here: leading /
trailing whitespace ignored, the empty string is `0`, an optional sign
followed by digits is that integer, anything else is `NaN` (`none`). -/
def jsNumber (s : String) : Option Int :=
  let t := jsTrim s
  if t = "" then some 0
  else
    match t.toList with
    | '-' :: ds =>
      if ds ≠ [] && ds.all Char.isDigit then some (-(digitsToNat ds : Int))
      else none
    | '+' :: ds =>
      if ds ≠ [] && ds.all Char.isDigit then some ((digitsToNat ds : Int))
      else none
    | ds =>
      if ds.all Char.isDigit then some ((digitsToNat ds : Int)) else none
where
  /-- Decimal value of a digit string. -/
  digitsToNat (ds : List Char) : Nat :=
    ds.foldl (fun n c => n * 10 + (c.toNat - '0'.toNat)) 0

/-- `Number(req.query.x) || default` (src/unnamed/part_001 lines 87-88):
an absent parameter gives `NaN`, and both `NaN` and `0` are falsy, so they
yield the default; every other numeric value passes through. -/
def numberOr (q : Option String) (d : Int) : Int :=
  match q with
  | none => d
  | some s =>
    match jsNumber s with
    | none => d
    | some 0 => d
    | some n => n

/-- The list endpoint's query parameters, all raw optional strings. -/
structure ListQuery where
  page : Option String := none
  limit : Option String := none
  status : Option String := none
  search : Option String := none
  sort : Option String := none
deriving DecidableEq, Repr

/-- `ProjectController.listProjects` (src/unnamed/part_001 lines 85-99):
coerces `page`/`limit` and delegates to the service. -/
def listProjects (q : ListQuery) (store : Store) : Except AppError ListResult :=
  ProjectService.listProjects
    { page := numberOr q.page 1, limit := numberOr q.limit 10,
      status := q.status, search := q.search, sort := q.sort } store

end ProjectController

/-- A 25-document store exercising the concrete pagination property
(total=25, limit=10, page=3). -/
def paginationStore : Store :=
  (List.range 25).map fun i =>
    { _id := some (toString i), clientName := "client", name := "proj",
      status := "active", startDate := (i : Int), createdAt := (i : Int) }

instance (s : SortSpec) : IsTotal StoredProject (ProjectRepository.sortLe s) :=
  ⟨by
    intro a b
    unfold ProjectRepository.sortLe
    split <;> exact le_total _ _⟩

instance (s : SortSpec) : IsTrans StoredProject (ProjectRepository.sortLe s) :=
  ⟨by
    intro a b c
    unfold ProjectRepository.sortLe
    split <;> intro h1 h2
    · exact le_trans h2 h1
    · exact le_trans h1 h2⟩

/-! ## Helper lemmas -/

/-- `totalPagesOf` is the mathematical ceiling of the exact quotient,
i.e. `Math.ceil(total / limit)`, whenever `limit ≠ 0`. -/
theorem totalPagesOf_eq_ceil (total limit : Int) (h : limit ≠ 0) :
    ProjectService.totalPagesOf total limit =
      Int.ceil ((total : ℚ) / (limit : ℚ)) := by
  rcases lt_or_gt_of_ne h with hneg | hpos
  · have h2 : ¬ (0 < limit) := by omega
    simp only [ProjectService.totalPagesOf, if_neg h, if_neg h2]
    have hb : (0:ℤ) ≤ -limit := by omega
    rw [Int.fdiv_eq_ediv _ hb]
    have hcast : (((-limit).toNat : ℕ) : ℤ) = -limit := Int.toNat_of_nonneg hb
    have hfl : ⌊((total:ℚ)) / (((-limit : ℤ)) : ℚ)⌋ = total / (-limit) := by
      rw [← hcast]
      exact_mod_cast Rat.floor_intCast_div_natCast total (-limit).toNat
    have hx : ((total:ℚ))/(limit:ℚ) = -(((total:ℚ))/(((-limit:ℤ)):ℚ)) := by
      push_cast; ring
    rw [hx, Int.ceil_neg, hfl]
  · have hb : (0:ℤ) ≤ limit := le_of_lt hpos
    simp only [ProjectService.totalPagesOf, if_neg h, if_pos hpos]
    rw [Int.fdiv_eq_ediv _ hb]
    have hcast : ((limit.toNat : ℕ) : ℤ) = limit := Int.toNat_of_nonneg hb
    have hfl : ⌊(((-total : ℤ)):ℚ) / ((limit : ℤ):ℚ)⌋ = (-total) / limit := by
      rw [← hcast]
      exact_mod_cast Rat.floor_intCast_div_natCast (-total) limit.toNat
    have hx : ((total:ℚ))/(limit:ℚ) = -((((-total:ℤ)):ℚ)/((limit:ℤ):ℚ)) := by
      push_cast; ring
    rw [hx, Int.ceil_neg, hfl]

/-- Erasing the first element satisfying `p` lowers the `p`-count by one. -/
theorem countP_eraseP {α : Type} (p : α → Bool) (l : List α) :
    (l.eraseP p).countP p = l.countP p - 1 := by
  induction l with
  | nil => simp
  | cons a t ih =>
    by_cases h : p a
    · simp [List.eraseP_cons, h, List.countP_cons]
    · simp [List.eraseP_cons, h, List.countP_cons, ih]

/-! ## Claim theorems: malformed ids, controller coercion, status ordering -/

/-- C3 counterexample: `getProjectDataById` on a malformed id raises a
store-level fault (the unguarded `new ObjectId` throws) instead of
returning a not-found result. -/
theorem getProjectDataById_malformed_cex :
    ProjectRepository.getProjectDataById "" [] = .error .bson ∧
    ProjectRepository.getProjectDataById "" [] ≠ .ok none := by decide

/-- C3 (amended): for every malformed id, `getProjectExistanceById`
returns `false` without a store fault, while `getProjectDataById`,
`deleteProjectById` and `updateProjectStatusById` raise a store-level
fault from the unguarded `ObjectId` constructor. -/
theorem repo_malformed_id_spec (id status : String) (now : Int) (store : Store)
    (h : ObjectId.isValid id = false) :
    ProjectRepository.getProjectExistanceById id store = false ∧
    ProjectRepository.getProjectDataById id store = .error .bson ∧
    ProjectRepository.deleteProjectById id store = .error .bson ∧
    ProjectRepository.updateProjectStatusById id status now store = .error .bson := by
  refine ⟨?_, ?_, ?_, ?_⟩
  · simp [ProjectRepository.getProjectExistanceById, h]
  · simp only [ProjectRepository.getProjectDataById,
      ProjectRepository.makeObjectId, h, Bool.false_eq_true, if_false]
    rfl
  · simp only [ProjectRepository.deleteProjectById,
      ProjectRepository.makeObjectId, h, Bool.false_eq_true, if_false]
    rfl
  · simp only [ProjectRepository.updateProjectStatusById,
      ProjectRepository.makeObjectId, h, Bool.false_eq_true, if_false]
    rfl

theorem repo_malformed_id_spec_witness :
    ObjectId.isValid "" = false ∧
    (ProjectRepository.getProjectExistanceById "" [] = false ∧
     ProjectRepository.getProjectDataById "" [] = .error .bson ∧
     ProjectRepository.deleteProjectById "" [] = .error .bson ∧
     ProjectRepository.updateProjectStatusById "" "active" 0 [] = .error .bson) :=
  ⟨by decide, repo_malformed_id_spec "" "active" 0 [] (by decide)⟩

/-- C4 (code bug): for a malformed id, `projectDeatilsById` throws a 400
error without consulting the store, but its kind string is the literal
misspelling "VALIDTION_ERROR", not the "VALIDATION_ERROR" of the
repository's error taxonomy that the claim states. -/
theorem projectDeatilsById_eval :
    (∀ store : Store, ProjectService.projectDeatilsById "bad-id" store =
      .error (.thrown ⟨400, "VALIDTION_ERROR", "Invalid id"⟩)) ∧
    "VALIDTION_ERROR" ≠ "VALIDATION_ERROR" := by
  constructor
  · intro store; rfl
  · decide

/-- C9: `updateProjectStatusById` validates the status before the
existence check, so a well-formed id matching no record combined with an
absent or non-whitelisted status yields the 400 "Invalid or missing
project status" error (never a 404), leaving the store unchanged. -/
theorem updateStatus_status_before_existence (id : String) (status : Option String)
    (now : Int) (store : Store)
    (hid : ObjectId.isValid id = true)
    (_hnone : ∀ d ∈ store, d._id ≠ some id)
    (hbad : ProjectService.badStatus status = true) :
    ProjectService.updateProjectStatusById id status now store =
      (.error (.thrown ⟨400, "VALIDATION_ERROR", "Invalid or missing project status"⟩),
       store) := by
  simp [ProjectService.updateProjectStatusById, hid, hbad]

theorem updateStatus_witness :
    ObjectId.isValid "507f1f77bcf86cd799439011" = true ∧
    ProjectService.badStatus (some "archived") = true ∧
    ProjectService.updateProjectStatusById "507f1f77bcf86cd799439011"
        (some "archived") 0 [] =
      (.error (.thrown ⟨400, "VALIDATION_ERROR", "Invalid or missing project status"⟩),
       []) :=
  ⟨by decide, by decide,
   updateStatus_status_before_existence _ _ _ _ (by decide) (by simp) (by decide)⟩

/-- C8: in the controller's `Number(x) || default` coercion a parameter
whose numeric value is 0 is treated exactly like an absent parameter
(replaced by the default), while a negative numeric value passes through
unchanged, making the service's `skip = (page-1)*limit` negative for any
positive limit. -/
theorem listQuery_zero_default_negative_passthrough (s : String) (d limit : Int) :
    (ProjectController.jsNumber s = some 0 →
      ProjectController.numberOr (some s) d = d ∧
      ProjectController.numberOr (some s) d = ProjectController.numberOr none d) ∧
    (∀ n : Int, ProjectController.jsNumber s = some n → n < 0 →
      ProjectController.numberOr (some s) d = n ∧
      (0 < limit → ProjectService.skipOf n limit < 0)) := by
  constructor
  · intro h
    simp [ProjectController.numberOr, h]
  · intro n h hneg
    constructor
    · cases n with
      | ofNat m => exact absurd hneg (Int.ofNat_nonneg m).not_lt
      | negSucc m => simp [ProjectController.numberOr, h]
    · intro hl
      unfold ProjectService.skipOf
      have hn1 : n - 1 < 0 := by omega
      exact mul_neg_of_neg_of_pos hn1 hl

theorem listQuery_witness :
    ProjectController.jsNumber "0" = some 0 ∧
    (ProjectController.numberOr (some "0") 10 = 10 ∧
     ProjectController.numberOr (some "0") 10 = ProjectController.numberOr none 10) ∧
    ProjectController.jsNumber "-5" = some (-5) ∧
    (ProjectController.numberOr (some "-5") 1 = -5 ∧
     (0 < (10:Int) → ProjectService.skipOf (-5) 10 < 0)) :=
  ⟨by decide,
   (listQuery_zero_default_negative_passthrough "0" 10 10).1 (by decide),
   by decide,
   (listQuery_zero_default_negative_passthrough "-5" 1 10).2 (-5) (by decide) (by decide)⟩

/-! ## Validator characterization lemmas -/

namespace ProjectValidator

theorem createCore_end_invalid (now : Int) (data : CreatePayload)
    (desc : Option String) (ps : Int)
    (hbs : badStatus data.status = false)
    (hsd : data.startDate = some (.valid ps))
    (hed : data.endDate = some .invalid) :
    createProject.createCore now data desc =
      .error ⟨400, "VALIDATION_ERROR", "End date must be a valid ISO date"⟩ := by
  unfold createProject.createCore
  rw [if_neg (by simp [hbs]), hsd, hed]
  rfl

theorem createCore_end_valid (now : Int) (data : CreatePayload)
    (desc : Option String) (ps pe : Int)
    (hbs : badStatus data.status = false)
    (hsd : data.startDate = some (.valid ps))
    (hed : data.endDate = some (.valid pe)) :
    createProject.createCore now data desc =
      (if pe < ps then
        .error ⟨400, "VALIDATION_ERROR", "End date cannot be before start date"⟩
      else .ok { clientName := jsTrim ((data.clientName).getD ""),
                 name := jsTrim ((data.name).getD ""),
                 description := desc, status := (data.status).getD "",
                 startDate := ps, endDate := some pe, createdAt := now }) := by
  unfold createProject.createCore
  rw [if_neg (by simp [hbs]), hsd, hed]
  rfl

theorem createCore_end_none (now : Int) (data : CreatePayload)
    (desc : Option String) (ps : Int)
    (hbs : badStatus data.status = false)
    (hsd : data.startDate = some (.valid ps))
    (hed : data.endDate = none) :
    createProject.createCore now data desc =
      .ok { clientName := jsTrim ((data.clientName).getD ""),
            name := jsTrim ((data.name).getD ""),
            description := desc, status := (data.status).getD "",
            startDate := ps, endDate := none, createdAt := now } := by
  unfold createProject.createCore
  rw [if_neg (by simp [hbs]), hsd, hed]

theorem createCore_ok_fields (now : Int) (data : CreatePayload)
    (desc : Option String) (out : StoredProject)
    (h : createProject.createCore now data desc = .ok out) :
    badStatus data.status = false ∧
    ∃ ps, data.startDate = some (.valid ps) ∧
      out.startDate = ps ∧ out.createdAt = now ∧ out._id = none ∧
      out.updatedAt = none ∧ out.description = desc ∧
      out.status = (data.status).getD "" ∧
      out.clientName = jsTrim ((data.clientName).getD "") ∧
      out.name = jsTrim ((data.name).getD "") ∧
      ((data.endDate = none ∧ out.endDate = none) ∨
       (∃ pe, data.endDate = some (.valid pe) ∧ ps ≤ pe ∧
         out.endDate = some pe)) := by
  have hbs : badStatus data.status = false := by
    by_contra hx
    rw [Bool.not_eq_false] at hx
    unfold createProject.createCore at h
    rw [if_pos (by simp [hx])] at h
    exact absurd h (by simp)
  refine ⟨hbs, ?_⟩
  cases hsd : data.startDate with
  | none =>
    unfold createProject.createCore at h
    rw [if_neg (by simp [hbs]), hsd] at h
    exact absurd h (by simp)
  | some sd =>
    cases sd with
    | invalid =>
      unfold createProject.createCore at h
      rw [if_neg (by simp [hbs]), hsd] at h
      exact absurd h (by simp)
    | valid ps =>
      refine ⟨ps, rfl, ?_⟩
      cases hed : data.endDate with
      | none =>
        rw [createCore_end_none now data desc ps hbs hsd hed] at h
        simp only [Except.ok.injEq] at h
        subst h
        simp
      | some ed =>
        cases ed with
        | invalid =>
          rw [createCore_end_invalid now data desc ps hbs hsd hed] at h
          exact absurd h (by simp)
        | valid pe =>
          rw [createCore_end_valid now data desc ps pe hbs hsd hed] at h
          by_cases hlt : pe < ps
          · rw [if_pos hlt] at h
            exact absurd h (by simp)
          · rw [if_neg hlt] at h
            simp only [Except.ok.injEq] at h
            subst h
            exact ⟨rfl, rfl, rfl, rfl, rfl, rfl, rfl, rfl,
              Or.inr ⟨pe, rfl, not_lt.mp hlt, rfl⟩⟩

theorem createProject_ok_desc (now : Int) (data : CreatePayload)
    (out : StoredProject)
    (h : createProject now data = .ok out) :
    ∃ desc, createProject.createCore now data desc = .ok out ∧
      desc.isSome = data.description.isSome := by
  unfold createProject at h
  split at h
  · exact absurd h (by simp)
  split at h
  · exact absurd h (by simp)
  cases hd : data.description with
  | some d =>
    rw [hd] at h
    have h2 : (if jsTrim d = "" then
        (Except.error ⟨VALIDATION_STATUS_CODE, VALIDATION_TITLE,
          "Description must be a non-empty string if provided"⟩ :
          Except ThrowError StoredProject)
      else createProject.createCore now data (some (jsTrim d))) =
        Except.ok out := h
    by_cases ht : jsTrim d = ""
    · rw [if_pos ht] at h2
      exact absurd h2 (by simp)
    · rw [if_neg ht] at h2
      exact ⟨some (jsTrim d), h2, by simp [hd]⟩
  | none =>
    rw [hd] at h
    exact ⟨none, h, by simp [hd]⟩

end ProjectValidator

namespace ProjectValidator

theorem createCore_error_shape (now : Int) (data : CreatePayload)
    (desc : Option String) (e : ThrowError)
    (h : createProject.createCore now data desc = .error e) :
    e.code = 400 ∧ e.title = "VALIDATION_ERROR" := by
  by_cases hbs : badStatus data.status = true
  · unfold createProject.createCore at h
    rw [if_pos hbs] at h
    injection h with h
    subst h
    exact ⟨rfl, rfl⟩
  · have hbs' : badStatus data.status = false := by simpa using hbs
    cases hsd : data.startDate with
    | none =>
      unfold createProject.createCore at h
      rw [if_neg (by simp [hbs']), hsd] at h
      have h2 : (Except.error ⟨VALIDATION_STATUS_CODE, VALIDATION_TITLE,
          "Start date is required"⟩ : Except ThrowError StoredProject) =
          .error e := h
      injection h2 with h2
      subst h2
      exact ⟨rfl, rfl⟩
    | some sd =>
      cases sd with
      | invalid =>
        unfold createProject.createCore at h
        rw [if_neg (by simp [hbs']), hsd] at h
        have h2 : (Except.error ⟨VALIDATION_STATUS_CODE, VALIDATION_TITLE,
            "Start date must be a valid ISO date"⟩ :
            Except ThrowError StoredProject) = .error e := h
        injection h2 with h2
        subst h2
        exact ⟨rfl, rfl⟩
      | valid ps =>
        cases hed : data.endDate with
        | none =>
          rw [createCore_end_none now data desc ps hbs' hsd hed] at h
          exact absurd h (by simp)
        | some ed =>
          cases ed with
          | invalid =>
            rw [createCore_end_invalid now data desc ps hbs' hsd hed] at h
            injection h with h
            subst h
            exact ⟨rfl, rfl⟩
          | valid pe =>
            rw [createCore_end_valid now data desc ps pe hbs' hsd hed] at h
            by_cases hlt : pe < ps
            · rw [if_pos hlt] at h
              injection h with h
              subst h
              exact ⟨rfl, rfl⟩
            · rw [if_neg hlt] at h
              exact absurd h (by simp)

theorem createProject_error_shape (now : Int) (data : CreatePayload)
    (e : ThrowError)
    (h : createProject now data = .error e) :
    e.code = 400 ∧ e.title = "VALIDATION_ERROR" := by
  unfold createProject at h
  split at h
  · injection h with h
    subst h
    exact ⟨rfl, rfl⟩
  split at h
  · injection h with h
    subst h
    exact ⟨rfl, rfl⟩
  cases hd : data.description with
  | some d =>
    rw [hd] at h
    have h2 : (if jsTrim d = "" then
        (Except.error ⟨VALIDATION_STATUS_CODE, VALIDATION_TITLE,
          "Description must be a non-empty string if provided"⟩ :
          Except ThrowError StoredProject)
      else createProject.createCore now data (some (jsTrim d))) =
        Except.error e := h
    by_cases ht : jsTrim d = ""
    · rw [if_pos ht] at h2
      injection h2 with h2
      subst h2
      exact ⟨rfl, rfl⟩
    · rw [if_neg ht] at h2
      exact createCore_error_shape now data _ e h2
  | none =>
    rw [hd] at h
    exact createCore_error_shape now data none e h

theorem createProject_eq_core (now : Int) (data : CreatePayload)
    (hc : badRequiredString data.clientName = false)
    (hn : badRequiredString data.name = false)
    (hd : ∀ d, data.description = some d → ¬ jsTrim d = "") :
    ∃ desc, createProject now data = createProject.createCore now data desc := by
  unfold createProject
  rw [if_neg (by simp [hc]), if_neg (by simp [hn])]
  cases hd2 : data.description with
  | some d =>
    refine ⟨some (jsTrim d), ?_⟩
    have h2 : (match (some d : Option String) with
      | some d =>
        if jsTrim d = "" then
          (Except.error ⟨VALIDATION_STATUS_CODE, VALIDATION_TITLE,
            "Description must be a non-empty string if provided"⟩ :
            Except ThrowError StoredProject)
        else createProject.createCore now data (some (jsTrim d))
      | none => createProject.createCore now data none) =
        if jsTrim d = "" then
          Except.error ⟨VALIDATION_STATUS_CODE, VALIDATION_TITLE,
            "Description must be a non-empty string if provided"⟩
        else createProject.createCore now data (some (jsTrim d)) := rfl
    rw [h2, if_neg (hd d hd2)]
  | none => exact ⟨none, rfl⟩

end ProjectValidator

theorem repo_update_sets_updatedAt (out : StoredProject) (newId s : String)
    (now2 : Int)
    (hval : ObjectId.isValid newId = true)
    (hupd : out.updatedAt = none) :
    ProjectRepository.updateProjectStatusById newId s now2
        [{ out with _id := some newId }] =
      .ok (true, [({ out with
                     _id := some newId, status := s,
                     updatedAt := some now2 } : StoredProject)]) := by
  have hne : ¬ (({ out with
      _id := some newId, status := s,
      updatedAt := some now2 } : StoredProject) =
      { out with _id := some newId }) := by
    intro heq
    have h2 := congrArg StoredProject.updatedAt heq
    simp at h2
    rw [hupd] at h2
    cases h2
  simp only [ProjectRepository.updateProjectStatusById,
    ProjectRepository.makeObjectId, hval, if_true]
  simp [ProjectRepository.updateFirst, hne, Bind.bind, Except.instMonad, Except.bind]

/-! ## Claim theorems: validator output and creation -/

/-- C2 counterexample: a payload whose `endDate` is present and unparsable
but whose `clientName` is missing fails with the client-name message, not
the end-date message — validation is fail-fast in source order. -/
theorem endDate_masked_by_clientName_cex :
    (⟨none, some "x", none, some "active", some (.valid 0), some .invalid⟩ :
      CreatePayload).endDate = some .invalid ∧
    ProjectValidator.createProject 0
      ⟨none, some "x", none, some "active", some (.valid 0), some .invalid⟩ =
      .error ⟨400, "VALIDATION_ERROR", "Client name is required"⟩ ∧
    ProjectValidator.createProject 0
      ⟨none, some "x", none, some "active", some (.valid 0), some .invalid⟩ ≠
      .error ⟨400, "VALIDATION_ERROR", "End date must be a valid ISO date"⟩ := by
  exact ⟨rfl, rfl, by decide⟩

/-- C2 (amended): provided the earlier validations (clientName, name,
description, status, startDate) pass, a present `endDate` fails with "End
date must be a valid ISO date" when unparsable, fails with "End date cannot
be before start date" when it precedes the parsed startDate, and otherwise
lands in the output; unconditionally, every record the validator produces
satisfies endDate ≥ startDate when endDate is present, and an absent
endDate stays absent. -/
theorem createProject_endDate_spec (now : Int) (data : CreatePayload) (ps : Int)
    (hc : ProjectValidator.badRequiredString data.clientName = false)
    (hn : ProjectValidator.badRequiredString data.name = false)
    (hd : ∀ d, data.description = some d → ¬ jsTrim d = "")
    (hs : ProjectValidator.badStatus data.status = false)
    (hstart : data.startDate = some (.valid ps)) :
    (data.endDate = some .invalid →
      ProjectValidator.createProject now data =
        .error ⟨400, "VALIDATION_ERROR", "End date must be a valid ISO date"⟩) ∧
    (∀ pe, data.endDate = some (.valid pe) → pe < ps →
      ProjectValidator.createProject now data =
        .error ⟨400, "VALIDATION_ERROR", "End date cannot be before start date"⟩) ∧
    (∀ pe, data.endDate = some (.valid pe) → ps ≤ pe →
      ∃ out, ProjectValidator.createProject now data = .ok out ∧
        out.endDate = some pe ∧ out.startDate = ps) ∧
    (∀ (d2 : CreatePayload) (out : StoredProject),
      ProjectValidator.createProject now d2 = .ok out →
      (∀ e, out.endDate = some e → out.startDate ≤ e) ∧
      (d2.endDate = none → out.endDate = none)) := by
  obtain ⟨desc, hcore⟩ := ProjectValidator.createProject_eq_core now data hc hn hd
  refine ⟨?_, ?_, ?_, ?_⟩
  · intro hed
    rw [hcore]
    exact ProjectValidator.createCore_end_invalid now data desc ps hs hstart hed
  · intro pe hed hlt
    rw [hcore,
      ProjectValidator.createCore_end_valid now data desc ps pe hs hstart hed,
      if_pos hlt]
  · intro pe hed hge
    rw [hcore,
      ProjectValidator.createCore_end_valid now data desc ps pe hs hstart hed,
      if_neg (not_lt.mpr hge)]
    exact ⟨_, rfl, rfl, rfl⟩
  · intro d2 out hok
    obtain ⟨desc2, hcore2, _⟩ :=
      ProjectValidator.createProject_ok_desc now d2 out hok
    obtain ⟨_, ps2, _, hstarteq, _, _, _, _, _, _, _, hend⟩ :=
      ProjectValidator.createCore_ok_fields now d2 desc2 out hcore2
    constructor
    · intro e he
      rcases hend with ⟨_, hnone⟩ | ⟨pe2, _, hle, hsome⟩
      · rw [hnone] at he; cases he
      · rw [hsome] at he
        injection he with he
        subst he
        rw [hstarteq]
        exact hle
    · intro hdn
      rcases hend with ⟨_, hnone⟩ | ⟨pe2, heq, _, _⟩
      · exact hnone
      · rw [hdn] at heq; cases heq

theorem createProject_endDate_spec_witness :
    ProjectValidator.badRequiredString (some "Acme") = false ∧
    ProjectValidator.badStatus (some "active") = false ∧
    (∃ out, ProjectValidator.createProject 7
        ⟨some "Acme", some "Site", none, some "active",
         some (.valid 100), some (.valid 200)⟩ = .ok out ∧
      out.endDate = some 200 ∧ out.startDate = 100) :=
  ⟨by decide, by decide,
   (createProject_endDate_spec 7
      ⟨some "Acme", some "Site", none, some "active",
       some (.valid 100), some (.valid 200)⟩ 100
      (by decide) (by decide) (by simp) (by decide) rfl).2.2.1 200 rfl
      (by decide)⟩

/-- C5 counterexample: a payload with an invalid status but also a missing
client name fails with "Client name is required", not the status message. -/
theorem createProject_status_masked_cex :
    ("bogus" ∉ ProjectValidator.ALLOWED_STATUSES) ∧
    (ProjectService.createProject 0 "507f1f77bcf86cd799439011"
        ⟨none, some "x", none, some "bogus", some (.valid 0), none⟩ []).1 =
      .error (.thrown ⟨400, "VALIDATION_ERROR", "Client name is required"⟩) ∧
    (ProjectService.createProject 0 "507f1f77bcf86cd799439011"
        ⟨none, some "x", none, some "bogus", some (.valid 0), none⟩ []).1 ≠
      .error (.thrown ⟨400, "VALIDATION_ERROR",
        "Invalid or missing project status"⟩) := by
  exact ⟨by decide, rfl, by decide⟩

/-- C5 (amended): a creation payload whose status is absent or not in
{active, on_hold, completed} always fails with a 400 `VALIDATION_ERROR`
and leaves the store unchanged; the message is "Invalid or missing project
status" whenever the earlier clientName/name/description validations
pass. -/
theorem createProject_badStatus_spec (now : Int) (newId : String)
    (data : CreatePayload) (store : Store)
    (hbad : ProjectValidator.badStatus data.status = true) :
    (∃ e : ThrowError,
      ProjectService.createProject now newId data store =
        (.error (.thrown e), store) ∧ e.code = 400 ∧
        e.title = "VALIDATION_ERROR") ∧
    (ProjectValidator.badRequiredString data.clientName = false →
     ProjectValidator.badRequiredString data.name = false →
     (∀ d, data.description = some d → ¬ jsTrim d = "") →
     ProjectService.createProject now newId data store =
       (.error (.thrown ⟨400, "VALIDATION_ERROR",
         "Invalid or missing project status"⟩), store)) := by
  constructor
  · cases hres : ProjectValidator.createProject now data with
    | ok out =>
      exfalso
      obtain ⟨desc2, hcore2, _⟩ :=
        ProjectValidator.createProject_ok_desc now data out hres
      obtain ⟨hbs0, _⟩ :=
        ProjectValidator.createCore_ok_fields now data desc2 out hcore2
      rw [hbad] at hbs0
      cases hbs0
    | error e =>
      refine ⟨e, ?_,
        ProjectValidator.createProject_error_shape now data e hres⟩
      unfold ProjectService.createProject
      rw [hres]
  · intro hc hn hd
    obtain ⟨desc, hcore⟩ :=
      ProjectValidator.createProject_eq_core now data hc hn hd
    have herr : ProjectValidator.createProject now data =
        .error ⟨400, "VALIDATION_ERROR", "Invalid or missing project status"⟩ := by
      rw [hcore]
      unfold ProjectValidator.createProject.createCore
      rw [if_pos hbad]
      rfl
    unfold ProjectService.createProject
    rw [herr]

theorem createProject_badStatus_spec_witness :
    ProjectValidator.badStatus (some "bogus") = true ∧
    ProjectService.createProject 0 "507f1f77bcf86cd799439011"
        ⟨some "Acme", some "Site", none, some "bogus",
         some (.valid 0), none⟩ [] =
      (.error (.thrown ⟨400, "VALIDATION_ERROR",
        "Invalid or missing project status"⟩), []) :=
  ⟨by decide,
   (createProject_badStatus_spec 0 "507f1f77bcf86cd799439011"
      ⟨some "Acme", some "Site", none, some "bogus",
       some (.valid 0), none⟩ [] (by decide)).2
      (by decide) (by decide) (by simp)⟩

/-- C10: every record the validator outputs carries no `_id` and no
`updatedAt`, its `createdAt` is the current clock, and `description` /
`endDate` are present in the output exactly when present in the input; the
freshly inserted document therefore has no `updatedAt`, and the status
update operation is what first sets it. -/
theorem validator_output_shape (now : Int) (data : CreatePayload)
    (out : StoredProject)
    (h : ProjectValidator.createProject now data = .ok out) :
    out._id = none ∧ out.updatedAt = none ∧ out.createdAt = now ∧
    out.description.isSome = data.description.isSome ∧
    out.endDate.isSome = data.endDate.isSome ∧
    (∀ newId store,
      ProjectRepository.createProject out newId store =
        ({ out with _id := some newId },
         store ++ [({ out with _id := some newId } : StoredProject)]) ∧
      ({ out with _id := some newId } : StoredProject).updatedAt = none) ∧
    (∀ (newId s : String) (now2 : Int), ObjectId.isValid newId = true →
      ProjectRepository.updateProjectStatusById newId s now2
          [{ out with _id := some newId }] =
        .ok (true, [({ out with
                       _id := some newId, status := s,
                       updatedAt := some now2 } : StoredProject)])) := by
  obtain ⟨desc, hcore, hdescSome⟩ :=
    ProjectValidator.createProject_ok_desc now data out h
  obtain ⟨_, ps, _, _, hcreated, hid, hupd, hdesc, _, _, _, hend⟩ :=
    ProjectValidator.createCore_ok_fields now data desc out hcore
  refine ⟨hid, hupd, hcreated, ?_, ?_, ?_, ?_⟩
  · rw [hdesc]; exact hdescSome
  · rcases hend with ⟨hdn, hon⟩ | ⟨pe, hde, _, hoe⟩
    · rw [hdn, hon]; rfl
    · rw [hde, hoe]; rfl
  · intro newId store
    exact ⟨rfl, by simpa using hupd⟩
  · intro newId s now2 hval
    exact repo_update_sets_updatedAt out newId s now2 hval hupd

theorem validator_output_shape_witness :
    ProjectValidator.createProject 7
      ⟨some "Acme", some "Site", some "desc", some "active",
       some (.valid 100), none⟩ =
      .ok { clientName := "Acme", name := "Site", description := some "desc",
            status := "active", startDate := 100, createdAt := 7 } ∧
    ({ clientName := "Acme", name := "Site", description := some "desc",
       status := "active", startDate := 100, createdAt := 7 } :
       StoredProject)._id = none ∧
    ({ clientName := "Acme", name := "Site", description := some "desc",
       status := "active", startDate := 100, createdAt := 7 } :
       StoredProject).updatedAt = none :=
  ⟨by rfl,
   (validator_output_shape 7
      ⟨some "Acme", some "Site", some "desc", some "active",
       some (.valid 100), none⟩ _ (by rfl)).1,
   (validator_output_shape 7
      ⟨some "Acme", some "Site", some "desc", some "active",
       some (.valid 100), none⟩ _ (by rfl)).2.1⟩

/-! ## Claim theorems: deletion -/

theorem deleteProjectById_eval (id : String) (store : Store)
    (h : ObjectId.isValid id = true) :
    ProjectRepository.deleteProjectById id store =
      .ok (store.any (fun d => d._id == some id),
           store.eraseP (fun d => d._id == some id)) := by
  simp only [ProjectRepository.deleteProjectById,
    ProjectRepository.makeObjectId, h, if_true]
  rfl

theorem getProjectExistanceById_eval (id : String) (store : Store)
    (h : ObjectId.isValid id = true) :
    ProjectRepository.getProjectExistanceById id store =
      store.any (fun d => d._id == some id) := by
  simp [ProjectRepository.getProjectExistanceById, h]

/-- C7: for a well-formed id, `remove` fails 404 on a store with no
matching record (leaving it unchanged); on a store with exactly one
matching record the first call succeeds and a second call on the resulting
store fails 404; and the 500 `FAILURE` outcome occurs exactly when the
store reports the deletion did not take effect after a successful
existence check. -/
theorem removeProjectById_spec (id : String) (store : Store)
    (h : ObjectId.isValid id = true) :
    ((∀ d ∈ store, d._id ≠ some id) →
      ProjectService.removeProjectById id store =
        (.error (.thrown ⟨404, "NOT_FOUND", "Project not found"⟩), store)) ∧
    (store.countP (fun d => d._id == some id) = 1 →
      ∃ store2, ProjectService.removeProjectById id store = (.ok (), store2) ∧
        ProjectService.removeProjectById id store2 =
          (.error (.thrown ⟨404, "NOT_FOUND", "Project not found"⟩), store2)) ∧
    ((ProjectService.removeProjectById id store).1 =
        .error (.thrown ⟨500, "FAILURE", "Failed to delete project"⟩) ↔
      (ProjectRepository.getProjectExistanceById id store = true ∧
       ∃ st2, ProjectRepository.deleteProjectById id store = .ok (false, st2))) := by
  have remove_eval : ∀ st : Store,
      ProjectService.removeProjectById id st =
        (if st.any (fun d => d._id == some id) then
          ((.ok () : Except AppError Unit),
           st.eraseP (fun d => d._id == some id))
        else (.error (.thrown ⟨404, "NOT_FOUND", "Project not found"⟩), st)) := by
    intro st
    by_cases hany : st.any (fun d => d._id == some id)
    · rw [if_pos hany]
      simp only [ProjectService.removeProjectById, h,
        getProjectExistanceById_eval id st h, hany,
        deleteProjectById_eval id st h]
      rfl
    · rw [if_neg hany]
      simp only [ProjectService.removeProjectById, h,
        getProjectExistanceById_eval id st h,
        Bool.not_eq_true] at *
      simp [hany]
  have any_false_of_nomatch : ∀ st : Store, (∀ d ∈ st, d._id ≠ some id) →
      st.any (fun d => d._id == some id) = false := by
    intro st hnm
    rw [List.any_eq_false]
    intro d hd
    simp only [beq_iff_eq]
    exact hnm d hd
  refine ⟨?_, ?_, ?_⟩
  · intro hnm
    rw [remove_eval store, if_neg (by simp [any_false_of_nomatch store hnm])]
  · intro hone
    have hany : store.any (fun d => d._id == some id) = true := by
      rw [List.any_eq_true]
      have hpos : 0 < store.countP (fun d => d._id == some id) := by omega
      obtain ⟨a, ha, hpa⟩ := List.countP_pos_iff.mp hpos
      exact ⟨a, ha, hpa⟩
    refine ⟨store.eraseP (fun d => d._id == some id), ?_, ?_⟩
    · rw [remove_eval store, if_pos hany]
    · have hzero : (store.eraseP (fun d => d._id == some id)).countP
          (fun d => d._id == some id) = 0 := by
        rw [countP_eraseP]
        omega
      have hany2 : (store.eraseP (fun d => d._id == some id)).any
          (fun d => d._id == some id) = false := by
        rw [List.any_eq_false]
        intro d hd
        have := List.countP_eq_zero.mp hzero d hd
        simpa using this
      rw [remove_eval _, if_neg (by simp [hany2])]
  · rw [remove_eval store]
    by_cases hany : store.any (fun d => d._id == some id)
    · rw [if_pos hany]
      constructor
      · intro hx
        exact absurd hx (by simp)
      · rintro ⟨_, st2, hdel⟩
        rw [deleteProjectById_eval id store h, hany] at hdel
        simp at hdel
    · rw [if_neg hany]
      constructor
      · intro hx
        simp at hx
      · rintro ⟨hex, _⟩
        rw [getProjectExistanceById_eval id store h] at hex
        exact absurd hex hany

theorem removeProjectById_spec_witness :
    ObjectId.isValid "507f1f77bcf86cd799439011" = true ∧
    ([({ _id := some "507f1f77bcf86cd799439011", clientName := "c",
         name := "n", status := "active", startDate := 0,
         createdAt := 0 } : StoredProject)].countP
      (fun d => d._id == some "507f1f77bcf86cd799439011") = 1) ∧
    (∃ store2,
      ProjectService.removeProjectById "507f1f77bcf86cd799439011"
        [({ _id := some "507f1f77bcf86cd799439011", clientName := "c",
            name := "n", status := "active", startDate := 0,
            createdAt := 0 } : StoredProject)] = (.ok (), store2) ∧
      ProjectService.removeProjectById "507f1f77bcf86cd799439011" store2 =
        (.error (.thrown ⟨404, "NOT_FOUND", "Project not found"⟩), store2)) :=
  ⟨by decide, by decide,
   (removeProjectById_spec "507f1f77bcf86cd799439011"
      [({ _id := some "507f1f77bcf86cd799439011", clientName := "c",
          name := "n", status := "active", startDate := 0,
          createdAt := 0 } : StoredProject)] (by decide)).2.1 (by decide)⟩

/-! ## Claim theorems: listing, sorting and pagination -/

theorem listProjects_repo_eval (filter : ListFilter) (spec : SortSpec)
    (skip limit : Int) (store : Store)
    (hskip : 0 ≤ skip) (hlim : limit ≠ 0) :
    ProjectRepository.listProjects filter spec skip limit store =
      .ok (((((store.filter (ProjectRepository.matchesFilter filter)).insertionSort
          (ProjectRepository.sortLe spec)).drop skip.toNat).take limit.natAbs).map
          ProjectRepository.toListItem,
        ((store.filter (ProjectRepository.matchesFilter filter)).length : Int)) := by
  simp only [ProjectRepository.listProjects, not_lt.mpr hskip, if_false, hlim,
    reduceIte]

theorem service_list_eval (p : ListProjectsParams) (store : Store)
    (spec : SortSpec)
    (hspec : ProjectService.sortOptionOf p.sort = .ok spec) :
    ProjectService.listProjects p store =
      (match ProjectRepository.listProjects
          (ProjectService.filterOf p.status p.search) spec
          (ProjectService.skipOf p.page p.limit) p.limit store with
      | .error e => .error e
      | .ok (projects, total) =>
        .ok { data := projects,
              pagination := {
                  total := total, page := p.page, limit := p.limit,
                  totalPages := ProjectService.totalPagesOf total p.limit } }) := by
  unfold ProjectService.listProjects
  rw [hspec]

theorem listProjects_sorted_general (spec : SortSpec)
    (R : ProjectListItem → ProjectListItem → Prop)
    (hR : ∀ a b : StoredProject, ProjectRepository.sortLe spec a b →
      R (ProjectRepository.toListItem a) (ProjectRepository.toListItem b))
    (filter : ListFilter) (skip limit : Int) (store : Store)
    (items : List ProjectListItem) (total : Int)
    (h : ProjectRepository.listProjects filter spec skip limit store =
      .ok (items, total)) :
    items.Pairwise R := by
  by_cases hskip : skip < 0
  · rw [ProjectRepository.listProjects, if_pos hskip] at h
    exact absurd h (by simp)
  · rw [ProjectRepository.listProjects, if_neg hskip] at h
    simp only [Except.ok.injEq, Prod.mk.injEq] at h
    obtain ⟨hitems, _⟩ := h
    have hsorted : ((store.filter (ProjectRepository.matchesFilter
        filter)).insertionSort (ProjectRepository.sortLe spec)).Pairwise
        (ProjectRepository.sortLe spec) :=
      List.sorted_insertionSort (ProjectRepository.sortLe spec) _
    subst hitems
    by_cases hl : limit = 0
    · rw [if_pos hl]
      exact ((hsorted.sublist (List.drop_sublist _ _)).map _ hR)
    · rw [if_neg hl]
      have hsub :
          ((((store.filter (ProjectRepository.matchesFilter
            filter)).insertionSort (ProjectRepository.sortLe spec)).drop
            skip.toNat).take limit.natAbs).Sublist
          ((store.filter (ProjectRepository.matchesFilter
            filter)).insertionSort (ProjectRepository.sortLe spec)) :=
        (List.take_sublist _ _).trans (List.drop_sublist _ _)
      exact ((hsorted.sublist hsub).map _ hR)

/-- C1 counterexample: the code computes the sort field with
`sort.replace("-", "")`, which removes the first `-` anywhere in the token,
not just a leading one: `"start-Date"` has no leading `-` and — with only a
leading dash removed — is not a whitelisted field name, yet the call
succeeds (sorting ascending on `startDate`) instead of failing 400. -/
theorem sort_token_inner_dash_cex :
    jsStartsWithDash "start-Date" = false ∧
    ("start-Date" ∉ ProjectService.allowedSortFields) ∧
    ProjectService.listProjects ⟨1, 10, none, none, some "start-Date"⟩ [] =
      .ok { data := [],
            pagination := { total := 0, page := 1, limit := 10,
                            totalPages := 0 } } := by
  exact ⟨rfl, by decide, by decide⟩

/-- C1 (amended): with a sort token present, the field is the token with
its FIRST `-` (anywhere) removed and the direction is descending iff the
token begins with `-`; a resulting field outside {createdAt, startDate}
fails 400 "Sorting not allowed on this field", a whitelisted field yields
a result sorted on that field in the selected direction, and an absent
token yields `createdAt` descending. -/
theorem listProjects_sort_whitelist (p : ListProjectsParams) (store : Store) :
    (∀ t, p.sort = some t → t ≠ "" →
      jsReplaceFirstDash t ∉ ProjectService.allowedSortFields →
      ProjectService.listProjects p store =
        .error (.thrown ⟨400, "Invalid Sort Field",
          "Sorting not allowed on this field"⟩)) ∧
    (∀ t, p.sort = some t → t ≠ "" → jsReplaceFirstDash t = "startDate" →
      ∀ r, ProjectService.listProjects p store = .ok r →
        (jsStartsWithDash t = true →
          r.data.Pairwise (fun a b => b.startDate ≤ a.startDate)) ∧
        (jsStartsWithDash t = false →
          r.data.Pairwise (fun a b => a.startDate ≤ b.startDate))) ∧
    (∀ t, p.sort = some t → t ≠ "" → jsReplaceFirstDash t = "createdAt" →
      ∀ r, ProjectService.listProjects p store = .ok r →
        (jsStartsWithDash t = true →
          r.data.Pairwise (fun a b => b.createdAt ≤ a.createdAt)) ∧
        (jsStartsWithDash t = false →
          r.data.Pairwise (fun a b => a.createdAt ≤ b.createdAt))) ∧
    (p.sort = none →
      ∀ r, ProjectService.listProjects p store = .ok r →
        r.data.Pairwise (fun a b => b.createdAt ≤ a.createdAt)) := by
  have sorted_of_ok : ∀ (spec : SortSpec)
      (R : ProjectListItem → ProjectListItem → Prop),
      (∀ a b : StoredProject, ProjectRepository.sortLe spec a b →
        R (ProjectRepository.toListItem a) (ProjectRepository.toListItem b)) →
      ProjectService.sortOptionOf p.sort = .ok spec →
      ∀ r, ProjectService.listProjects p store = .ok r →
        r.data.Pairwise R := by
    intro spec R hR hspec r hok
    rw [service_list_eval p store spec hspec] at hok
    cases hrepo : ProjectRepository.listProjects
        (ProjectService.filterOf p.status p.search) spec
        (ProjectService.skipOf p.page p.limit) p.limit store with
    | error e => rw [hrepo] at hok; exact absurd hok (by simp)
    | ok pr =>
      obtain ⟨items, total⟩ := pr
      rw [hrepo] at hok
      have hok2 : (Except.ok { data := items, pagination := {
          total := total, page := p.page, limit := p.limit,
          totalPages := ProjectService.totalPagesOf total p.limit } } :
          Except AppError ListResult) = .ok r := hok
      injection hok2 with hok2
      have hdata : r.data = items := by rw [← hok2]
      rw [hdata]
      exact listProjects_sorted_general spec R hR _ _ _ _ items total hrepo
  refine ⟨?_, ?_, ?_, ?_⟩
  · intro t ht htne hnmem
    have hspec : ProjectService.sortOptionOf p.sort =
        .error (.thrown ⟨400, "Invalid Sort Field",
          "Sorting not allowed on this field"⟩) := by
      rw [ht]
      simp [ProjectService.sortOptionOf, ProjectService.strTruthy, htne, hnmem]
    unfold ProjectService.listProjects
    rw [hspec]
  · intro t ht htne hfield r hok
    constructor
    · intro hdash
      have hspec : ProjectService.sortOptionOf p.sort =
          .ok ⟨"startDate", -1⟩ := by
        rw [ht]
        simp [ProjectService.sortOptionOf, ProjectService.strTruthy, htne,
          hfield, hdash]
        decide
      refine sorted_of_ok ⟨"startDate", -1⟩ _ ?_ hspec r hok
      intro a b hab
      simpa [ProjectRepository.sortLe, ProjectRepository.sortKey,
        ProjectRepository.toListItem] using hab
    · intro hdash
      have hspec : ProjectService.sortOptionOf p.sort =
          .ok ⟨"startDate", 1⟩ := by
        rw [ht]
        simp [ProjectService.sortOptionOf, ProjectService.strTruthy, htne,
          hfield, hdash]
        decide
      refine sorted_of_ok ⟨"startDate", 1⟩ _ ?_ hspec r hok
      intro a b hab
      simpa [ProjectRepository.sortLe, ProjectRepository.sortKey,
        ProjectRepository.toListItem] using hab
  · intro t ht htne hfield r hok
    constructor
    · intro hdash
      have hspec : ProjectService.sortOptionOf p.sort =
          .ok ⟨"createdAt", -1⟩ := by
        rw [ht]
        simp [ProjectService.sortOptionOf, ProjectService.strTruthy, htne,
          hfield, hdash]
        decide
      refine sorted_of_ok ⟨"createdAt", -1⟩ _ ?_ hspec r hok
      intro a b hab
      simpa [ProjectRepository.sortLe, ProjectRepository.sortKey,
        ProjectRepository.toListItem] using hab
    · intro hdash
      have hspec : ProjectService.sortOptionOf p.sort =
          .ok ⟨"createdAt", 1⟩ := by
        rw [ht]
        simp [ProjectService.sortOptionOf, ProjectService.strTruthy, htne,
          hfield, hdash]
        decide
      refine sorted_of_ok ⟨"createdAt", 1⟩ _ ?_ hspec r hok
      intro a b hab
      simpa [ProjectRepository.sortLe, ProjectRepository.sortKey,
        ProjectRepository.toListItem] using hab
  · intro hnone r hok
    have hspec : ProjectService.sortOptionOf p.sort =
        .ok ⟨"createdAt", -1⟩ := by
      rw [hnone]
      simp [ProjectService.sortOptionOf, ProjectService.strTruthy]
    refine sorted_of_ok ⟨"createdAt", -1⟩ _ ?_ hspec r hok
    intro a b hab
    simpa [ProjectRepository.sortLe, ProjectRepository.sortKey,
      ProjectRepository.toListItem] using hab

theorem listProjects_sort_whitelist_witness :
    ∃ r, ProjectService.listProjects ⟨1, 10, none, none, some "-startDate"⟩
        [⟨some "aaaaaaaaaaaaaaaaaaaaaaaa", "c1", "n1", none, "active",
          5, none, 1, none⟩,
         ⟨some "bbbbbbbbbbbbbbbbbbbbbbbb", "c2", "n2", none, "active",
          9, none, 2, none⟩] = .ok r ∧
      r.data.Pairwise (fun a b => b.startDate ≤ a.startDate) := by
  have happ := (listProjects_sort_whitelist
      ⟨1, 10, none, none, some "-startDate"⟩
      [⟨some "aaaaaaaaaaaaaaaaaaaaaaaa", "c1", "n1", none, "active",
        5, none, 1, none⟩,
       ⟨some "bbbbbbbbbbbbbbbbbbbbbbbb", "c2", "n2", none, "active",
        9, none, 2, none⟩]).2.1 "-startDate" rfl (by decide) (by decide)
  exact ⟨_, rfl, (happ _ rfl).1 (by decide)⟩

/-- C6: `page` and `limit` default to 1 and 10 when the query parameter is
absent or non-numeric; when the call succeeds with positive page/limit the
returned page is the sorted, filtered store with `(page-1)*limit` records
skipped and at most `limit` taken, and the pagination metadata is
`{total, page, limit, totalPages}` with `totalPages = ceil(total/limit)`;
in particular for total=25, limit=10, page=3 the call returns 5 items and
`totalPages = 3`. -/
theorem listProjects_pagination_spec (q : ProjectController.ListQuery)
    (store : Store) :
    ((q.page = none ∨ ∃ s, q.page = some s ∧ ProjectController.jsNumber s = none) →
      ProjectController.numberOr q.page 1 = 1) ∧
    ((q.limit = none ∨ ∃ s, q.limit = some s ∧ ProjectController.jsNumber s = none) →
      ProjectController.numberOr q.limit 10 = 10) ∧
    (∀ spec, ProjectService.sortOptionOf q.sort = .ok spec →
      1 ≤ ProjectController.numberOr q.page 1 →
      1 ≤ ProjectController.numberOr q.limit 10 →
      ProjectController.listProjects q store =
        .ok { data := ((((store.filter (ProjectRepository.matchesFilter
                (ProjectService.filterOf q.status q.search))).insertionSort
                (ProjectRepository.sortLe spec)).drop
                ((ProjectController.numberOr q.page 1 - 1) *
                  ProjectController.numberOr q.limit 10).toNat).take
                (ProjectController.numberOr q.limit 10).natAbs).map
                ProjectRepository.toListItem,
              pagination := {
                total := ((store.filter (ProjectRepository.matchesFilter
                  (ProjectService.filterOf q.status q.search))).length : Int),
                page := ProjectController.numberOr q.page 1,
                limit := ProjectController.numberOr q.limit 10,
                totalPages := Int.ceil
                  ((((store.filter (ProjectRepository.matchesFilter
                    (ProjectService.filterOf q.status q.search))).length : Int) : ℚ) /
                  ((ProjectController.numberOr q.limit 10 : Int) : ℚ)) } }) ∧
    ((ProjectController.listProjects
        { page := some "3", limit := some "10" } paginationStore).toOption.map
      (fun r => (r.data.length, r.pagination.totalPages, r.pagination.total)) =
      some (5, 3, 25)) := by
  refine ⟨?_, ?_, ?_, by decide⟩
  · rintro (hp | ⟨s, hp, hn⟩)
    · rw [hp]; rfl
    · rw [hp]
      simp [ProjectController.numberOr, hn]
  · rintro (hp | ⟨s, hp, hn⟩)
    · rw [hp]; rfl
    · rw [hp]
      simp [ProjectController.numberOr, hn]
  · intro spec hspec hpage hlimit
    have hlim0 : ProjectController.numberOr q.limit 10 ≠ 0 := by omega
    have hskip : 0 ≤ ProjectService.skipOf (ProjectController.numberOr q.page 1)
        (ProjectController.numberOr q.limit 10) := by
      unfold ProjectService.skipOf
      have h1 : 0 ≤ ProjectController.numberOr q.page 1 - 1 := by omega
      have h2 : 0 ≤ ProjectController.numberOr q.limit 10 := by omega
      exact mul_nonneg h1 h2
    unfold ProjectController.listProjects
    rw [service_list_eval _ store spec hspec,
      listProjects_repo_eval _ spec _ _ store hskip hlim0]
    rw [← totalPagesOf_eq_ceil _ _ hlim0]
    rfl

theorem listProjects_pagination_spec_witness :
    (ProjectController.listProjects
        { page := some "3", limit := some "10" } paginationStore).toOption.map
      (fun r => (r.data.length, r.pagination.totalPages, r.pagination.total)) =
      some (5, 3, 25) :=
  (listProjects_pagination_spec { page := some "3", limit := some "10" }
    paginationStore).2.2.2
